import Mathlib

/-!
Verification development for the ICT watchlist repository.

Shallow embedding conventions:
  * Python floats are modelled as rationals (ℚ); the numeric literals used by
    the code (0.5, 0.25, 1e-6, price levels) are all exactly representable.
  * pandas DataFrames of OHLC bars are modelled as lists of records, walked in
    index order, exactly as the code iterates them.
  * Python dicts with a fixed set of accessed keys are modelled as structures
    whose fields are the accessed keys; optional keys are Option-valued.
  * A ghost field `consumed` is threaded through the outcome simulator: it
    accumulates the size fraction multiplied into each partial realization
    (0.5 per T1 fire, 0.25 per T2 fire, the T3-or-T4 slice, the remaining
    size at a stop-out, and the remaining size marked at the final close).
    It changes nothing about the computation; it only records bookkeeping.
-/

namespace ICT

/-- ASCII lower-casing of one character, the case mapping relevant to the
direction and kind strings handled by the code. -/
def charLower (c : Char) : Char :=
  if 65 ≤ c.toNat ∧ c.toNat ≤ 90 then Char.ofNat (c.toNat + 32) else c

/-- ASCII upper-casing of one character. -/
def charUpper (c : Char) : Char :=
  if 97 ≤ c.toNat ∧ c.toNat ≤ 122 then Char.ofNat (c.toNat - 32) else c

/-- The str.lower call of the code, modelled character-wise. -/
def strLower (s : String) : String := String.mk (s.data.map charLower)

/-- The str.upper call of the code, modelled character-wise. -/
def strUpper (s : String) : String := String.mk (s.data.map charUpper)

/-- Whitespace for the str.strip call. -/
def isSpaceChar (c : Char) : Bool := c == ' ' || c == '\t' || c == '\n' || c == '\r'

/-- The str.strip call of the code: drop whitespace from both ends. -/
def strStrip (s : String) : String :=
  String.mk (((s.data.dropWhile isSpaceChar).reverse.dropWhile isSpaceChar).reverse)

/-- One OHLC bar as consumed by the backtest simulator (app/backtest.py uses
the high, low and close columns). -/
structure Candle where
  high : ℚ
  low : ℚ
  close : ℚ
deriving DecidableEq

/-- The Trade dataclass of app/backtest.py.  The timestamp is abstracted to a
natural number (its value never influences the simulated outcome). -/
structure Trade where
  ts : ℕ
  symbol : String
  direction : String
  entry : ℚ
  stop : ℚ
  t1 : ℚ
  t2 : ℚ
  t3 : ℚ
  t4 : ℚ
  kind : String
deriving DecidableEq

/-- Trade.risk_R property: abs(entry - stop). -/
def Trade.risk_R (tr : Trade) : ℚ := |tr.entry - tr.stop|

/-- Trade.is_long property: lowered direction is one of long, bull, bullish, buy. -/
def Trade.is_long (tr : Trade) : Bool :=
  ["long", "bull", "bullish", "buy"].contains (strLower tr.direction)

/-- Trade.is_short property: not is_long. -/
def Trade.is_short (tr : Trade) : Bool := ! tr.is_long

/-- The profit_R closure inside simulate_outcome: move relative to entry in the
trade direction, divided by R when R is positive, else 0. -/
def profit_R (tr : Trade) (price : ℚ) : ℚ :=
  let mv := if tr.is_long then price - tr.entry else tr.entry - price
  if tr.risk_R > 0 then mv / tr.risk_R else 0

/-- Whether a bar touches a target level: (is_long and high >= level) or
(is_short and low <= level), as written in simulate_outcome. -/
def hitLevel (tr : Trade) (c : Candle) (lvl : ℚ) : Bool :=
  (tr.is_long && decide (lvl ≤ c.high)) || (tr.is_short && decide (c.low ≤ lvl))

/-- The mutable loop state of simulate_outcome, plus the ghost field
`consumed` recording the total size fraction realized so far. -/
structure SimState where
  remain : ℚ
  realized : ℚ
  hits : List String
  stop_level : ℚ
  moved_to_be : Bool
  t3_or_t4_left : ℚ
  t3_t4_done : Bool
  consumed : ℚ
deriving DecidableEq

/-- The initial simulator state for a trade. -/
def initState (tr : Trade) : SimState :=
  { remain := 1, realized := 0, hits := [], stop_level := tr.stop,
    moved_to_be := false, t3_or_t4_left := 1/4, t3_t4_done := false, consumed := 0 }

/-- The return value of simulate_outcome; last_dt is modelled as the index of
the bar on which the run ended. -/
structure SimResult where
  realized_R : ℚ
  hit_seq : List String
  stop_hit : Bool
  last_dt : Option ℕ
  consumed : ℚ
deriving DecidableEq

/-- The T1 block of simulate_outcome: fires whenever remain > 0 and the bar
touches t1 (the code keeps no first-touch flag for T1). -/
def t1Step (tr : Trade) (c : Candle) (st : SimState) : SimState :=
  if st.remain > 0 ∧ hitLevel tr c tr.t1 then
    { st with
      realized := st.realized + profit_R tr tr.t1 * (1/2),
      remain := st.remain - 1/2,
      hits := st.hits ++ ["T1"],
      stop_level := if st.moved_to_be then st.stop_level else tr.entry,
      moved_to_be := true,
      consumed := st.consumed + 1/2 }
  else st

/-- The T2 block of simulate_outcome: fires whenever remain > 0 and the bar
touches t2 (again no first-touch flag). -/
def t2Step (tr : Trade) (c : Candle) (st : SimState) : SimState :=
  if st.remain > 0 ∧ hitLevel tr c tr.t2 then
    { st with
      realized := st.realized + profit_R tr tr.t2 * (1/4),
      remain := st.remain - 1/4,
      hits := st.hits ++ ["T2"],
      consumed := st.consumed + 1/4 }
  else st

/-- The shared T3-or-T4 block of simulate_outcome.  The level is t4 only when
t4 is touched and t3 is not; on a tie (both touched in the bar) the level is
t3. The appended label is T4 exactly when the chosen level equals t4. -/
def t34Step (tr : Trade) (c : Candle) (st : SimState) : SimState :=
  if st.t3_t4_done = false ∧ st.t3_or_t4_left > 0 ∧ st.remain > 0 then
    let hit_t3 := hitLevel tr c tr.t3
    let hit_t4 := hitLevel tr c tr.t4
    if hit_t3 || hit_t4 then
      let lvl := if hit_t4 && !hit_t3 then tr.t4 else tr.t3
      { st with
        realized := st.realized + profit_R tr lvl * st.t3_or_t4_left,
        remain := st.remain - st.t3_or_t4_left,
        hits := st.hits ++ [if lvl = tr.t4 then "T4" else "T3"],
        t3_or_t4_left := 0,
        t3_t4_done := true,
        consumed := st.consumed + st.t3_or_t4_left }
    else st
  else st

/-- The stop-first check of simulate_outcome: a long stops out when the bar
low pierces the stop level, a short when the bar high pierces it. -/
def stopTouched (tr : Trade) (st : SimState) (c : Candle) : Bool :=
  if tr.is_long then decide (c.low ≤ st.stop_level) else decide (st.stop_level ≤ c.high)

/-- The bar-walking loop of simulate_outcome.  Per bar: stop first, then the
T1, T2 and T3-or-T4 blocks, then the early exit when remain is at most 1e-6.
The close of the bar just processed is carried in lastClose so that, when the
bar list is exhausted, the remaining size is marked at the close of the final
bar (the code reads the final close off the frame; over a nonempty bar list
the two coincide). -/
def simGo (tr : Trade) (st : SimState) (i : ℕ) (lastClose : ℚ) :
    List Candle → SimResult
  | [] =>
      if st.remain > 0 then
        { realized_R := st.realized + profit_R tr lastClose * st.remain,
          hit_seq := st.hits, stop_hit := false, last_dt := some (i - 1),
          consumed := st.consumed + st.remain }
      else
        { realized_R := st.realized, hit_seq := st.hits, stop_hit := false,
          last_dt := some (i - 1), consumed := st.consumed }
  | c :: rest =>
      if stopTouched tr st c then
        { realized_R := st.realized + profit_R tr st.stop_level * st.remain,
          hit_seq := st.hits, stop_hit := true, last_dt := some i,
          consumed := st.consumed + st.remain }
      else
        let st2 := t34Step tr c (t2Step tr c (t1Step tr c st))
        if st2.remain ≤ 1/1000000 then
          { realized_R := st2.realized, hit_seq := st2.hits, stop_hit := false,
            last_dt := some i, consumed := st2.consumed }
        else
          simGo tr st2 (i + 1) c.close rest

/-- simulate_outcome of app/backtest.py over a list of bars. -/
def simulate_outcome (tr : Trade) (candles : List Candle) : SimResult :=
  if candles.isEmpty then
    { realized_R := 0, hit_seq := [], stop_hit := false, last_dt := none, consumed := 0 }
  else simGo tr (initState tr) 0 0 candles

/-- A long trade used in the concrete simulator runs below: entry 100,
stop 98, targets 102 / 104 / 106 / 108. -/
def trDemo : Trade :=
  { ts := 0, symbol := "XYZ", direction := "long", entry := 100, stop := 98,
    t1 := 102, t2 := 104, t3 := 106, t4 := 108, kind := "entry" }

theorem trDemo_is_long : trDemo.is_long = true := by decide

theorem trDemo_entry : trDemo.entry = 100 := rfl

theorem trDemo_stop : trDemo.stop = 98 := rfl

theorem trDemo_t1 : trDemo.t1 = 102 := rfl

theorem trDemo_t2 : trDemo.t2 = 104 := rfl

theorem trDemo_t3 : trDemo.t3 = 106 := rfl

theorem trDemo_t4 : trDemo.t4 = 108 := rfl

theorem trDemo_risk : trDemo.risk_R = 2 := by
  rw [Trade.risk_R, trDemo_entry, trDemo_stop]; norm_num

/-- C1: with no first-touch flag on T1, a bar sequence that touches T1 and T2
on the first bar and T1 again on the second bar (while staying above the
breakeven stop) consumes 0.5 + 0.25 + 0.5 = 1.25 of size: the total fraction
consumed exceeds 1.0 and the hit sequence records T1 twice. -/
theorem c1_consumed_overflow :
    (simulate_outcome trDemo [⟨105, 100, 105⟩, ⟨105, 101, 105⟩]).consumed = 5/4 ∧
    (simulate_outcome trDemo [⟨105, 100, 105⟩, ⟨105, 101, 105⟩]).hit_seq =
      ["T1", "T2", "T1"] ∧
    (1 : ℚ) < 5/4 := by
  norm_num [simulate_outcome, simGo, initState, t1Step, t2Step, t34Step,
    stopTouched, hitLevel, profit_R, Trade.is_short, trDemo_is_long,
    trDemo_entry, trDemo_stop, trDemo_t1, trDemo_t2, trDemo_t3, trDemo_t4,
    trDemo_risk]

/-- C2 counterexample: a single bar whose high (110) touches both T3 (106) and
T4 (108).  The code awards the final slice to T3, not T4: the hit sequence
ends in T3 and the realized slice is profit_R(t3) x 0.25 = 0.75, not
profit_R(t4) x 0.25 = 1. -/
theorem c2_counterexample :
    hitLevel trDemo ⟨110, 100, 110⟩ trDemo.t3 = true ∧
    hitLevel trDemo ⟨110, 100, 110⟩ trDemo.t4 = true ∧
    (simulate_outcome trDemo [⟨110, 100, 110⟩]).hit_seq = ["T1", "T2", "T3"] ∧
    (simulate_outcome trDemo [⟨110, 100, 110⟩]).realized_R = 7/4 ∧
    profit_R trDemo trDemo.t3 * (1/4) = 3/4 ∧
    profit_R trDemo trDemo.t4 * (1/4) = 1 ∧
    ((3 : ℚ)/4 ≠ 1) := by
  norm_num [simulate_outcome, simGo, initState, t1Step, t2Step, t34Step,
    stopTouched, hitLevel, profit_R, Trade.is_short, trDemo_is_long,
    trDemo_entry, trDemo_stop, trDemo_t1, trDemo_t2, trDemo_t3, trDemo_t4,
    trDemo_risk]

/-- C2 amended: the final slice goes to whichever of T3/T4 is touched first;
when both are touched within the same bar, T3 (the nearer target) takes
precedence: the slice is realized at profit_R(t3) and the label is T3
(degenerately T4 when t3 = t4).  T4 is used only when T4 alone is touched. -/
theorem c2_amended_t34 (tr : Trade) (c : Candle) (st : SimState)
    (hdone : st.t3_t4_done = false) (hleft : st.t3_or_t4_left > 0)
    (hrem : st.remain > 0) :
    (hitLevel tr c tr.t3 = true →
      t34Step tr c st =
        { st with
          realized := st.realized + profit_R tr tr.t3 * st.t3_or_t4_left,
          remain := st.remain - st.t3_or_t4_left,
          hits := st.hits ++ [if tr.t3 = tr.t4 then "T4" else "T3"],
          t3_or_t4_left := 0, t3_t4_done := true,
          consumed := st.consumed + st.t3_or_t4_left }) ∧
    (hitLevel tr c tr.t3 = false → hitLevel tr c tr.t4 = true →
      t34Step tr c st =
        { st with
          realized := st.realized + profit_R tr tr.t4 * st.t3_or_t4_left,
          remain := st.remain - st.t3_or_t4_left,
          hits := st.hits ++ ["T4"],
          t3_or_t4_left := 0, t3_t4_done := true,
          consumed := st.consumed + st.t3_or_t4_left }) ∧
    (hitLevel tr c tr.t3 = false → hitLevel tr c tr.t4 = false →
      t34Step tr c st = st) := by
  refine ⟨fun h3 => ?_, fun h3 h4 => ?_, fun h3 h4 => ?_⟩ <;>
    simp [t34Step, hdone, hleft, hrem, h3]
  · simp [h4]
  · simp [h4]

/-- Witness for c2_amended_t34 at a concrete tie bar. -/
theorem c2_amended_t34_witness :
    t34Step trDemo ⟨110, 100, 110⟩ (initState trDemo) =
      { initState trDemo with
        realized := (initState trDemo).realized +
          profit_R trDemo trDemo.t3 * (initState trDemo).t3_or_t4_left,
        remain := (initState trDemo).remain - (initState trDemo).t3_or_t4_left,
        hits := (initState trDemo).hits ++
          [if trDemo.t3 = trDemo.t4 then "T4" else "T3"],
        t3_or_t4_left := 0, t3_t4_done := true,
        consumed := (initState trDemo).consumed + (initState trDemo).t3_or_t4_left } :=
  (c2_amended_t34 trDemo ⟨110, 100, 110⟩ (initState trDemo) rfl
      (by norm_num [initState]) (by norm_num [initState])).1
    (by norm_num [hitLevel, trDemo_is_long, trDemo_t3])

/-- C3 counterexample: on the spec scenario (T1-only bar, then a bar whose low
triggers the breakeven stop) the code realizes 0.5 R in total, not 1.0 R:
the T1 half realizes profit_R(102) x 0.5 = 0.5 and the breakeven stop-out
adds profit_R(100) x 0.5 = 0. -/
theorem c3_counterexample :
    (simulate_outcome trDemo [⟨103, 99, 102⟩, ⟨100, 99, 100⟩]).realized_R = 1/2 ∧
    ((1 : ℚ)/2 ≠ 1) := by
  norm_num [simulate_outcome, simGo, initState, t1Step, t2Step, t34Step,
    stopTouched, hitLevel, profit_R, Trade.is_short, trDemo_is_long,
    trDemo_entry, trDemo_stop, trDemo_t1, trDemo_t2, trDemo_t3, trDemo_t4,
    trDemo_risk]

/-- C3 amended: the spec scenario ends with realized_R = 0.5, hit_seq = [T1]
and stop_hit = true (the stop having been moved to entry after T1, so the
second bar stops the remaining half out at breakeven for zero extra R). -/
theorem c3_amended_run :
    simulate_outcome trDemo [⟨103, 99, 102⟩, ⟨100, 99, 100⟩] =
      { realized_R := 1/2, hit_seq := ["T1"], stop_hit := true,
        last_dt := some 1, consumed := 1 } := by
  norm_num [simulate_outcome, simGo, initState, t1Step, t2Step, t34Step,
    stopTouched, hitLevel, profit_R, Trade.is_short, trDemo_is_long,
    trDemo_entry, trDemo_stop, trDemo_t1, trDemo_t2, trDemo_t3, trDemo_t4,
    trDemo_risk]

/-- Python round(x, 2) over ℚ: the integer nearest to 100x, halves going to
the even integer (round-half-to-even). -/
def roundHalfEven (q : ℚ) : ℤ :=
  if q - ⌊q⌋ < 1/2 then ⌊q⌋
  else if 1/2 < q - ⌊q⌋ then ⌊q⌋ + 1
  else if ⌊q⌋ % 2 = 0 then ⌊q⌋ else ⌊q⌋ + 1

/-- Rounding to cent precision, round(x, 2) in the code. -/
def round2 (q : ℚ) : ℚ := (roundHalfEven (q * 100) : ℚ) / 100

/-- The liquidity levels on the correct side of entry, as filtered inside
the _targets_from_R helper of app/watchlist.py: above entry for a long
(entry > stop), below entry for a short. -/
def correctSide (entry stop : ℚ) (liq : List ℚ) : List ℚ :=
  liq.filter (fun x => if entry > stop then decide (entry < x) else decide (x < entry))

/-- One pure R-multiple target: entry + i x R in the trade direction. -/
def pureR_target (entry stop : ℚ) (i : ℚ) : ℚ :=
  if entry > stop then entry + i * |entry - stop| else entry - i * |entry - stop|

/-- The _targets_from_R helper of app/watchlist.py.  The Python sorted(...)
call with key abs(x - entry) is a stable ascending sort, modelled by
List.insertionSort on the same key; T1 falls back to the 1R target when no
correct-side level exists, T2 to the 2R target when fewer than two exist;
T3 and T4 are always pure R-multiples; all four are rounded to cents. -/
def targets_from_R (entry stop : ℚ) (liq : List ℚ) : List ℚ :=
  let ls := List.insertionSort (fun a b => |a - entry| ≤ |b - entry|)
    (correctSide entry stop liq)
  [round2 (ls.headD (pureR_target entry stop 1)),
   round2 ((ls.drop 1).headD (pureR_target entry stop 2)),
   round2 (pureR_target entry stop 3),
   round2 (pureR_target entry stop 4)]

/-- C4: the target builder takes the correct-side liquidity levels in order
of absolute distance from entry (a distance-sorted permutation of the
filtered levels), uses the nearest for T1 and the second nearest for T2
(falling back to the 1R and 2R multiples), keeps T3 and T4 as pure 3R and 4R
multiples, rounds everything to cents; with entry 100, stop 98 and no
liquidity the ladder is [102, 104, 106, 108]. -/
theorem c4_target_ladder :
    (∀ entry stop liq, entry ≠ stop →
      ∃ l : List ℚ,
        l.Perm (correctSide entry stop liq) ∧
        l.Pairwise (fun a b => |a - entry| ≤ |b - entry|) ∧
        targets_from_R entry stop liq =
          [round2 (l.headD (pureR_target entry stop 1)),
           round2 ((l.drop 1).headD (pureR_target entry stop 2)),
           round2 (pureR_target entry stop 3),
           round2 (pureR_target entry stop 4)]) ∧
    targets_from_R 100 98 [] = [102, 104, 106, 108] := by
  constructor
  · intro entry stop liq _
    refine ⟨List.insertionSort (fun a b => |a - entry| ≤ |b - entry|)
        (correctSide entry stop liq),
      List.perm_insertionSort _ _, ?_, rfl⟩
    haveI : IsTotal ℚ (fun a b => |a - entry| ≤ |b - entry|) :=
      ⟨fun a b => le_total _ _⟩
    haveI : IsTrans ℚ (fun a b => |a - entry| ≤ |b - entry|) :=
      ⟨fun a b c => le_trans⟩
    exact List.sorted_insertionSort _ _
  · norm_num [targets_from_R, correctSide, pureR_target, round2, roundHalfEven,
      List.insertionSort]

/-- Witness for c4_target_ladder at entry 100, stop 98, one liquidity level. -/
theorem c4_target_ladder_witness :
    (100 : ℚ) ≠ 98 ∧
    ∃ l : List ℚ,
      l.Perm (correctSide 100 98 [101]) ∧
      l.Pairwise (fun a b => |a - (100 : ℚ)| ≤ |b - 100|) ∧
      targets_from_R 100 98 [101] =
        [round2 (l.headD (pureR_target 100 98 1)),
         round2 ((l.drop 1).headD (pureR_target 100 98 2)),
         round2 (pureR_target 100 98 3),
         round2 (pureR_target 100 98 4)] :=
  ⟨by norm_num, c4_target_ladder.1 100 98 [101] (by norm_num)⟩

/-- The confluence flags passed to score by analyze_symbol (truthiness of the
bos, fvg, ob and eq_liq entries of the confluence dict). -/
structure Confluence where
  bos : Bool
  fvg : Bool
  ob : Bool
  eq_liq : Bool

/-- The bias fields read by score: the ddoi label and the opex_week and
earnings_soon flags.  A bias dict with no ddoi entry behaves like any label
distinct from pos and neg. -/
structure BiasSnap where
  ddoi : String
  opex_week : Bool
  earnings_soon : Bool

/-- The score function of app/ranking.py: sequential additive points,
clamped to the interval from 0 to 100 at the end. -/
def score (conf : Confluence) (bias : BiasSnap) (_atr_like : ℚ)
    (spread_ok : Bool) : ℚ :=
  let s : ℚ := 0
  let s := if conf.bos then s + 20 else s
  let s := if conf.fvg then s + 20 else s
  let s := if conf.ob then s + 20 else s
  let s := if conf.eq_liq then s + 10 else s
  let s := if bias.ddoi = "pos" then s + 10 else s
  let s := if bias.ddoi = "neg" then s - 10 else s
  let s := if bias.opex_week then s + 5 else s
  let s := if bias.earnings_soon then s - 20 else s
  let s := if spread_ok then s + 5 else s
  max 0 (min 100 s)

/-- The additive point total described by the spec, written as one sum. -/
def score_points (conf : Confluence) (bias : BiasSnap) (spread_ok : Bool) : ℚ :=
  (if conf.bos then 20 else 0) + (if conf.fvg then 20 else 0) +
  (if conf.ob then 20 else 0) + (if conf.eq_liq then 10 else 0) +
  (if bias.ddoi = "pos" then 10 else 0) - (if bias.ddoi = "neg" then 10 else 0) +
  (if bias.opex_week then 5 else 0) - (if bias.earnings_soon then 20 else 0) +
  (if spread_ok then 5 else 0)

theorem ite_add_form (b : Prop) [Decidable b] (s x : ℚ) :
    (if b then s + x else s) = s + (if b then x else 0) := by
  split_ifs <;> simp

theorem ite_sub_form (b : Prop) [Decidable b] (s x : ℚ) :
    (if b then s - x else s) = s - (if b then x else 0) := by
  split_ifs <;> simp

/-- C5: the score equals the clamp to the interval from 0 to 100 of the
additive point sum (+20 each for BOS, FVG and OB, +10 for liquidity, +10 or
-10 for positive or negative dealer bias, +5 for OPEX week, -20 for earnings,
+5 for acceptable spread); it always lies between 0 and 100; and re-running
it on identical inputs yields the identical value. -/
theorem c5_score_props :
    ∀ (conf : Confluence) (bias : BiasSnap) (atr_like : ℚ) (spread_ok : Bool),
      score conf bias atr_like spread_ok =
        max 0 (min 100 (score_points conf bias spread_ok)) ∧
      0 ≤ score conf bias atr_like spread_ok ∧
      score conf bias atr_like spread_ok ≤ 100 ∧
      score conf bias atr_like spread_ok = score conf bias atr_like spread_ok := by
  intro conf bias a sp
  have h : score conf bias a sp = max 0 (min 100 (score_points conf bias sp)) := by
    simp only [score, score_points, ite_add_form, ite_sub_form, zero_add]
  refine ⟨h, ?_, ?_, rfl⟩
  · rw [h]; exact le_max_left _ _
  · rw [h]; exact max_le (by norm_num) (min_le_left _ _)

/-- A fair-value-gap or order-block zone as produced by the detectors of
app/detectors: direction, bar timestamp (abstracted to ℕ, increasing within
each detector's output), and the price interval. -/
structure Zone where
  dir : String
  ts : ℕ
  low : ℚ
  high : ℚ
deriving DecidableEq

/-- A break-of-structure event (only the fields read by analyze_symbol). -/
structure BosEvent where
  dir : String
  ts : ℕ
deriving DecidableEq

/-- The Python slice l[-3:]: the last three elements (or all of them). -/
def lastN {α : Type} (n : ℕ) (l : List α) : List α := l.drop (l.length - n)

/-- The long_bias test of analyze_symbol: any bull BOS among the last 3. -/
def longBias (bos_list : List BosEvent) : Bool :=
  (lastN 3 bos_list).any (fun b => b.dir == "bull")

/-- The short_bias test of analyze_symbol: any bear BOS among the last 3. -/
def shortBias (bos_list : List BosEvent) : Bool :=
  (lastN 3 bos_list).any (fun b => b.dir == "bear")

/-- The Python expression z[-1] if z else None. -/
def lastOpt {α : Type} : List α → Option α
  | [] => none
  | [a] => some a
  | _ :: b :: rest => lastOpt (b :: rest)

/-- The entry/stop derivation slice of analyze_symbol (app/watchlist.py):
direction from the last three BOS events (long wins when both appear), the
candidate zone is the last element of the same-direction FVG list
concatenated with the same-direction order-block list, entry is the zone
midpoint and stop the zone low (long) or high (short); no zone, no result. -/
def derive_entry_stop (bos_list : List BosEvent) (fvg_list ob_list : List Zone) :
    Option (ℚ × ℚ × String) :=
  if longBias bos_list then
    match lastOpt ((fvg_list.filter (fun z => z.dir == "bull")) ++
        (ob_list.filter (fun z => z.dir == "bull"))) with
    | some z => some ((z.low + z.high) / 2, z.low, "long")
    | none => none
  else if shortBias bos_list then
    match lastOpt ((fvg_list.filter (fun z => z.dir == "bear")) ++
        (ob_list.filter (fun z => z.dir == "bear"))) with
    | some z => some ((z.low + z.high) / 2, z.high, "short")
    | none => none
  else none

/-- The zone with the largest timestamp (first such on ties). -/
def latestZone (zs : List Zone) : Option Zone :=
  zs.foldl (fun acc z =>
    match acc with
    | none => some z
    | some w => if w.ts < z.ts then some z else some w) none

/-- The derivation as the claim words it (second definition, written from the
claim, for comparison): the candidate is the most recent, latest-timestamp,
same-direction zone among the FVGs and order blocks together. -/
def derive_entry_stop_claimed (bos_list : List BosEvent)
    (fvg_list ob_list : List Zone) : Option (ℚ × ℚ × String) :=
  if longBias bos_list then
    match latestZone ((fvg_list.filter (fun z => z.dir == "bull")) ++
        (ob_list.filter (fun z => z.dir == "bull"))) with
    | some z => some ((z.low + z.high) / 2, z.low, "long")
    | none => none
  else if shortBias bos_list then
    match latestZone ((fvg_list.filter (fun z => z.dir == "bear")) ++
        (ob_list.filter (fun z => z.dir == "bear"))) with
    | some z => some ((z.low + z.high) / 2, z.high, "short")
    | none => none
  else none

/-- C6 counterexample: a bull FVG at timestamp 9 is more recent than the bull
order block at timestamp 5, yet the code derives entry/stop from the order
block (entry 2, stop 1), not from the latest-timestamp zone (entry 11,
stop 10). -/
theorem c6_counterexample :
    derive_entry_stop [⟨"bull", 5⟩] [⟨"bull", 9, 10, 12⟩] [⟨"bull", 5, 1, 3⟩] =
      some (2, 1, "long") ∧
    derive_entry_stop_claimed [⟨"bull", 5⟩] [⟨"bull", 9, 10, 12⟩]
      [⟨"bull", 5, 1, 3⟩] = some (11, 10, "long") ∧
    (some ((2 : ℚ), (1 : ℚ), "long") ≠ some ((11 : ℚ), (10 : ℚ), "long")) := by
  refine ⟨?_, ?_, by norm_num⟩ <;>
    norm_num [derive_entry_stop, derive_entry_stop_claimed, longBias, shortBias,
      lastN, lastOpt, latestZone]

theorem lastOpt_append {α : Type} (a b : List α) (hb : b ≠ []) :
    lastOpt (a ++ b) = lastOpt b := by
  induction a with
  | nil => rfl
  | cons x xs ih =>
    cases hxs : xs ++ b with
    | nil => exact absurd (List.append_eq_nil.mp hxs).2 hb
    | cons y rest =>
      rw [List.cons_append, hxs]
      rw [show lastOpt (x :: y :: rest) = lastOpt (y :: rest) from rfl]
      rw [← hxs, ih]

/-- C6 amended: the derivation picks the last listed same-direction order
block when one exists, otherwise the last listed same-direction FVG (the last
element of the FVG-then-order-block concatenation, not the latest-timestamp
zone across both lists); entry is the zone midpoint; stop is the zone low for
a long and the zone high for a short; with no same-direction zone the symbol
yields no candidate. -/
theorem c6_amended :
    ∀ (bos_list : List BosEvent) (fvg_list ob_list : List Zone),
      (longBias bos_list = true →
        ((ob_list.filter (fun z => z.dir == "bull")) ≠ [] →
          derive_entry_stop bos_list fvg_list ob_list =
            (match lastOpt (ob_list.filter (fun z => z.dir == "bull")) with
             | some z => some ((z.low + z.high) / 2, z.low, "long")
             | none => none)) ∧
        ((ob_list.filter (fun z => z.dir == "bull")) = [] →
          derive_entry_stop bos_list fvg_list ob_list =
            (match lastOpt (fvg_list.filter (fun z => z.dir == "bull")) with
             | some z => some ((z.low + z.high) / 2, z.low, "long")
             | none => none))) ∧
      (longBias bos_list = false → shortBias bos_list = true →
        ((ob_list.filter (fun z => z.dir == "bear")) ≠ [] →
          derive_entry_stop bos_list fvg_list ob_list =
            (match lastOpt (ob_list.filter (fun z => z.dir == "bear")) with
             | some z => some ((z.low + z.high) / 2, z.high, "short")
             | none => none)) ∧
        ((ob_list.filter (fun z => z.dir == "bear")) = [] →
          derive_entry_stop bos_list fvg_list ob_list =
            (match lastOpt (fvg_list.filter (fun z => z.dir == "bear")) with
             | some z => some ((z.low + z.high) / 2, z.high, "short")
             | none => none))) ∧
      (longBias bos_list = false → shortBias bos_list = false →
        derive_entry_stop bos_list fvg_list ob_list = none) := by
  intro bos_list fvg_list ob_list
  refine ⟨fun hl => ⟨fun hne => ?_, fun he => ?_⟩,
    fun hl hs => ⟨fun hne => ?_, fun he => ?_⟩, fun hl hs => ?_⟩
  · simp only [derive_entry_stop, hl, if_true]
    rw [lastOpt_append _ _ hne]
  · simp only [derive_entry_stop, hl, if_true]
    rw [he, List.append_nil]
  · simp [derive_entry_stop, hl, hs]
    rw [lastOpt_append _ _ hne]
  · simp [derive_entry_stop, hl, hs]
    rw [he, List.append_nil]
  · simp [derive_entry_stop, hl, hs]

/-- Witness for c6_amended: one bull BOS with one bull order block and no
FVG. -/
theorem c6_amended_witness :
    derive_entry_stop [⟨"bull", 0⟩] [] [⟨"bull", 1, 4, 6⟩] =
      (match lastOpt (([⟨"bull", 1, 4, 6⟩] : List Zone).filter
          (fun z => z.dir == "bull")) with
       | some z => some ((z.low + z.high) / 2, z.low, "long")
       | none => none) :=
  ((c6_amended [⟨"bull", 0⟩] [] [⟨"bull", 1, 4, 6⟩]).1 (by decide)).1 (by decide)

/-- A CSV row as handed to _parse_row: an association list from column name
to cell value (an absent key models both a missing column and a None cell). -/
abbrev Row : Type := List (String × String)

/-- Dictionary lookup row[n]. -/
def rowGet (row : Row) (k : String) : Option String :=
  (row.find? (fun p => p.1 == k)).map (fun p => p.2)

/-- The pick helper of _parse_row: the first listed column whose value is
present and neither None nor the empty string. -/
def pick (row : Row) : List String → Option String
  | [] => none
  | n :: rest =>
    match rowGet row n with
    | some v => if v = "" then pick row rest else some v
    | none => pick row rest

/-- The _parse_row function of app/backtest.py.  The Python float(...) call
and the strptime fallback chain (formats list plus date-only fallback) are
library calls, abstracted as the parameters parseFloat and parseTs; a none
result models a parse failure.  Everything else follows the source: alias
picking, strip/upper/lower normalization, the required-fields check, number
parsing, timestamp parsing, and the final rejection of zero-risk trades. -/
def parse_row (parseFloat : String → Option ℚ) (parseTs : String → Option ℕ)
    (row : Row) : Option Trade :=
  let ts_raw := strStrip ((pick row ["timestamp_pt", "timestamp", "time"]).getD "")
  let sym := strUpper (strStrip ((pick row ["symbol", "ticker"]).getD ""))
  let direction := strLower (strStrip ((pick row ["direction", "dir"]).getD ""))
  let entry := pick row ["entry"]
  let stop := pick row ["stop"]
  let t1 := pick row ["t1", "T1"]
  let t2 := pick row ["t2", "T2"]
  let t3 := pick row ["t3", "T3"]
  let t4 := pick row ["t4", "T4"]
  let kind := strStrip ((pick row ["kind", "type"]).getD "entry")
  if ts_raw = "" ∨ sym = "" ∨ direction = "" ∨ entry = none ∨ stop = none ∨
      t1 = none ∨ t2 = none ∨ t3 = none ∨ t4 = none then none
  else
    match parseFloat (entry.getD ""), parseFloat (stop.getD ""),
        parseFloat (t1.getD ""), parseFloat (t2.getD ""),
        parseFloat (t3.getD ""), parseFloat (t4.getD "") with
    | some e, some s, some v1, some v2, some v3, some v4 =>
      (match parseTs ts_raw with
       | some ts =>
          let tr : Trade := ⟨ts, sym, direction, e, s, v1, v2, v3, v4, kind⟩
          if tr.risk_R > 0 then some tr else none
       | none => none)
    | _, _, _, _, _, _ => none

/-- C7: whatever the primitive float and timestamp parsers do, every Trade
returned by the row parser has risk_R strictly positive, and a row whose
entry and stop cells parse to the same price is rejected (no Trade). -/
theorem c7_parse_row :
    (∀ (parseFloat : String → Option ℚ) (parseTs : String → Option ℕ)
       (row : Row) (tr : Trade),
      parse_row parseFloat parseTs row = some tr → 0 < tr.risk_R) ∧
    (∀ (parseFloat : String → Option ℚ) (parseTs : String → Option ℕ)
       (row : Row) (v : ℚ),
      parseFloat ((pick row ["entry"]).getD "") = some v →
      parseFloat ((pick row ["stop"]).getD "") = some v →
      parse_row parseFloat parseTs row = none) := by
  constructor
  · intro pf pts row tr h
    simp only [parse_row] at h
    split at h
    · simp at h
    · split at h
      · split at h
        · split at h
          · rename_i hrisk
            cases h
            exact hrisk
          · simp at h
        · simp at h
      · simp at h
  · intro pf pts row v he hs
    simp only [parse_row]
    split
    · rfl
    · rw [he, hs]
      split
      · split
        · simp_all [Trade.risk_R]
        · rfl
      · rfl

/-- Concrete float parser for the c7 witness rows. -/
def pfW : String → Option ℚ := fun s =>
  if s = "100" then some 100 else if s = "98" then some 98
  else if s = "102" then some 102 else if s = "104" then some 104
  else if s = "106" then some 106 else if s = "108" then some 108 else none

/-- Concrete timestamp parser for the c7 witness rows. -/
def ptsW : String → Option ℕ := fun _ => some 7

/-- A well-formed journal row with entry 100 and stop 98. -/
def rowW : Row :=
  [("timestamp", "t0"), ("symbol", "aapl"), ("direction", "Long"),
   ("entry", "100"), ("stop", "98"), ("t1", "102"), ("t2", "104"),
   ("t3", "106"), ("t4", "108")]

/-- The same row with stop equal to entry (zero risk). -/
def rowEqW : Row :=
  [("timestamp", "t0"), ("symbol", "aapl"), ("direction", "Long"),
   ("entry", "100"), ("stop", "100"), ("t1", "102"), ("t2", "104"),
   ("t3", "106"), ("t4", "108")]

/-- The Trade parsed from rowW. -/
def trW : Trade := ⟨7, "AAPL", "long", 100, 98, 102, 104, 106, 108, "entry"⟩

/-- Witness for c7_parse_row: rowW parses to a positive-risk trade, and the
zero-risk row rowEqW is rejected. -/
theorem c7_parse_row_witness :
    (0 : ℚ) < trW.risk_R ∧ parse_row pfW ptsW rowEqW = none := by
  have e1 : strStrip ((pick rowW ["timestamp_pt", "timestamp", "time"]).getD "") = "t0" := by
    decide
  have e2 : strUpper (strStrip ((pick rowW ["symbol", "ticker"]).getD "")) = "AAPL" := by
    decide
  have e3 : strLower (strStrip ((pick rowW ["direction", "dir"]).getD "")) = "long" := by
    decide
  have e4 : pick rowW ["entry"] = some "100" := by decide
  have e5 : pick rowW ["stop"] = some "98" := by decide
  have e6 : pick rowW ["t1", "T1"] = some "102" := by decide
  have e7 : pick rowW ["t2", "T2"] = some "104" := by decide
  have e8 : pick rowW ["t3", "T3"] = some "106" := by decide
  have e9 : pick rowW ["t4", "T4"] = some "108" := by decide
  have e10 : strStrip ((pick rowW ["kind", "type"]).getD "entry") = "entry" := by decide
  have f1 : pfW "100" = some 100 := rfl
  have f2 : pfW "98" = some 98 := rfl
  have f3 : pfW "102" = some 102 := rfl
  have f4 : pfW "104" = some 104 := rfl
  have f5 : pfW "106" = some 106 := rfl
  have f6 : pfW "108" = some 108 := rfl
  constructor
  · refine c7_parse_row.1 pfW ptsW rowW trW ?_
    norm_num [parse_row, e1, e2, e3, e4, e5, e6, e7, e8, e9, e10,
      f1, f2, f3, f4, f5, f6, ptsW, trW, Trade.risk_R]
    decide
  · exact c7_parse_row.2 pfW ptsW rowEqW 100 (by decide) (by decide)

/-- One per-symbol result as ranked by generate (app/watchlist.py): only the
symbol and the score field that drives the sort are modelled.  asyncio.gather
returns worker results in argument order, so the collected rows stand in the
original universe order; rows.sort(key=score, reverse=True) is Python's
stable descending sort, modelled by List.insertionSort with the relation
(second score at most first score). -/
structure CandRow where
  symbol : String
  score : ℚ
deriving DecidableEq

/-- The final ranking step of generate. -/
def rank_rows (rows : List CandRow) : List CandRow :=
  List.insertionSort (fun a b => b.score ≤ a.score) rows

theorem filter_orderedInsert {α : Type} (r : α → α → Prop) [DecidableRel r]
    (p : α → Bool) (x : α) (l : List α)
    (hx : p x = true → ∀ b, ¬ r x b → p b = false) :
    (List.orderedInsert r x l).filter p =
      if p x then x :: l.filter p else l.filter p := by
  induction l with
  | nil => simp [List.orderedInsert, List.filter_cons]
  | cons b bs ih =>
    simp only [List.orderedInsert]
    by_cases hrb : r x b
    · rw [if_pos hrb]
      by_cases hpx : p x
      · simp [List.filter_cons, hpx]
      · simp [List.filter_cons, hpx]
    · rw [if_neg hrb]
      by_cases hpb : p b
      · by_cases hpx : p x
        · exact absurd hpb (by simp [hx hpx b hrb])
        · simp [List.filter_cons, hpb, hpx, ih, hx]
      · simp [List.filter_cons, hpb, ih, hx]

theorem filter_insertionSort {α : Type} (r : α → α → Prop) [DecidableRel r]
    (p : α → Bool) (l : List α)
    (H : ∀ x, p x = true → ∀ b, ¬ r x b → p b = false) :
    (List.insertionSort r l).filter p = l.filter p := by
  induction l with
  | nil => rfl
  | cons x xs ih =>
    simp only [List.insertionSort]
    rw [filter_orderedInsert r p x _ (H x)]
    by_cases hpx : p x
    · rw [if_pos hpx, ih, List.filter_cons_of_pos hpx]
    · rw [if_neg hpx, ih, List.filter_cons_of_neg hpx]

/-- C8: the ranked candidate list is descending in score (every later row
scores no more than every earlier one), and for every score value the rows
carrying exactly that score appear in the same order as in the collected
input list (stable sort: ties keep universe order). -/
theorem c8_rank_props :
    ∀ rows : List CandRow,
      (rank_rows rows).Pairwise (fun a b => b.score ≤ a.score) ∧
      ∀ c : ℚ,
        (rank_rows rows).filter (fun r => decide (r.score = c)) =
          rows.filter (fun r => decide (r.score = c)) := by
  intro rows
  constructor
  · haveI : IsTotal CandRow (fun a b => b.score ≤ a.score) :=
      ⟨fun a b => le_total _ _⟩
    haveI : IsTrans CandRow (fun a b => b.score ≤ a.score) :=
      ⟨fun a b c hab hbc => le_trans hbc hab⟩
    exact List.sorted_insertionSort _ _
  · intro c
    refine filter_insertionSort _ _ _ ?_
    intro x hpx b hrb
    simp only [decide_eq_true_eq] at hpx
    simp only [decide_eq_false_iff_not]
    intro hpb
    exact hrb (by rw [hpb, ← hpx])

/-- One bar as read by equal_highs_lows (only high and low are used). -/
structure Bar where
  high : ℚ
  low : ℚ
deriving DecidableEq

/-- Python division: raises ZeroDivisionError (none) on a zero denominator. -/
def pydiv (a b : ℚ) : Option ℚ := if b = 0 then none else some (a / b)

/-- The equal-high test for one adjacent pair, with Python division made
fallible: the pair is examined only when both highs are truthy (nonzero),
and the relative difference uses the later bar's high as denominator. -/
def ehlPairH (tol : ℚ) (prev b : Bar) : Option (List ℚ) :=
  if b.high ≠ 0 ∧ prev.high ≠ 0 then
    match pydiv |b.high - prev.high| b.high with
    | some d => some (if d ≤ tol then [max b.high prev.high] else [])
    | none => none
  else some []

/-- The equal-low test for one adjacent pair, fallible division as above. -/
def ehlPairL (tol : ℚ) (prev b : Bar) : Option (List ℚ) :=
  if b.low ≠ 0 ∧ prev.low ≠ 0 then
    match pydiv |b.low - prev.low| b.low with
    | some d => some (if d ≤ tol then [min b.low prev.low] else [])
    | none => none
  else some []

/-- The loop of equal_highs_lows over adjacent pairs, in the fallible model:
none anywhere means the Python code would have raised. -/
def ehlWalkChecked (tol : ℚ) : Bar → List Bar → Option (List ℚ × List ℚ)
  | _, [] => some ([], [])
  | prev, b :: rest =>
    match ehlPairH tol prev b, ehlPairL tol prev b, ehlWalkChecked tol b rest with
    | some hs, some ls, some r2 => some (hs ++ r2.1, ls ++ r2.2)
    | _, _, _ => none

/-- The same loop written total: a pair contributes exactly when both values
are nonzero and the relative difference (later value as denominator) is
within tolerance; pairs with a zero value are skipped. -/
def ehlWalk (tol : ℚ) : Bar → List Bar → List ℚ × List ℚ
  | _, [] => ([], [])
  | prev, b :: rest =>
    ((if b.high ≠ 0 ∧ prev.high ≠ 0 ∧ |b.high - prev.high| / b.high ≤ tol
        then [max b.high prev.high] else []) ++ (ehlWalk tol b rest).1,
     (if b.low ≠ 0 ∧ prev.low ≠ 0 ∧ |b.low - prev.low| / b.low ≤ tol
        then [min b.low prev.low] else []) ++ (ehlWalk tol b rest).2)

/-- Python sorted(set(l)): distinct values in ascending order. -/
def pySortedSet (l : List ℚ) : List ℚ :=
  List.insertionSort (fun a b => a ≤ b) l.eraseDups

/-- equal_highs_lows of app/detectors/liquidity.py, total version. -/
def equal_highs_lows (bars : List Bar) (tol : ℚ) : List ℚ × List ℚ :=
  match bars with
  | [] => ([], [])
  | b0 :: rest =>
    (pySortedSet (ehlWalk tol b0 rest).1, pySortedSet (ehlWalk tol b0 rest).2)

/-- equal_highs_lows with Python division modelled as fallible. -/
def equal_highs_lows_checked (bars : List Bar) (tol : ℚ) :
    Option (List ℚ × List ℚ) :=
  match bars with
  | [] => some ([], [])
  | b0 :: rest =>
    match ehlWalkChecked tol b0 rest with
    | some r => some (pySortedSet r.1, pySortedSet r.2)
    | none => none

theorem ehlPairH_eq (tol : ℚ) (prev b : Bar) :
    ehlPairH tol prev b =
      some (if b.high ≠ 0 ∧ prev.high ≠ 0 ∧ |b.high - prev.high| / b.high ≤ tol
        then [max b.high prev.high] else []) := by
  unfold ehlPairH pydiv
  by_cases h1 : b.high = 0
  · simp [h1]
  · by_cases h2 : prev.high = 0
    · simp [h1, h2]
    · simp [h1, h2]

theorem ehlPairL_eq (tol : ℚ) (prev b : Bar) :
    ehlPairL tol prev b =
      some (if b.low ≠ 0 ∧ prev.low ≠ 0 ∧ |b.low - prev.low| / b.low ≤ tol
        then [min b.low prev.low] else []) := by
  unfold ehlPairL pydiv
  by_cases h1 : b.low = 0
  · simp [h1]
  · by_cases h2 : prev.low = 0
    · simp [h1, h2]
    · simp [h1, h2]

theorem ehlWalkChecked_eq (tol : ℚ) (prev : Bar) (l : List Bar) :
    ehlWalkChecked tol prev l = some (ehlWalk tol prev l) := by
  induction l generalizing prev with
  | nil => rfl
  | cons b rest ih =>
    simp only [ehlWalkChecked, ehlWalk, ih, ehlPairH_eq, ehlPairL_eq]

/-- C9: on every bar sequence and tolerance the equal-highs-lows detector
runs to completion without dividing by zero (the fallible model never
returns none) and computes exactly the total guard-skipping function: a pair
is tested only when both highs (both lows) are nonzero, the relative
difference divides by the later bar's value, and zero-valued pairs
contribute no level. -/
theorem c9_no_div_by_zero :
    ∀ (bars : List Bar) (tol : ℚ),
      equal_highs_lows_checked bars tol = some (equal_highs_lows bars tol) := by
  intro bars tol
  cases bars with
  | nil => rfl
  | cons b0 rest =>
    simp only [equal_highs_lows_checked, equal_highs_lows, ehlWalkChecked_eq]

/-- The greeks sub-dict of one option contract. -/
structure Greeks where
  gamma : Option ℚ
  delta : Option ℚ
deriving DecidableEq

/-- One contract of an options-chain snapshot, restricted to the keys read by
ddoi_from_chain (app/bias/ddoi.py); the snapshot itself is the list under its
results (or options) key. -/
structure OptionContract where
  greeks : Option Greeks
  open_interest : Option ℚ
  details_contract_type : Option String
  contract_type : Option String
deriving DecidableEq

/-- Python x or y for an optional string: None and the empty string are
falsy and fall through to y. -/
def pyStrOr (x : Option String) (y : String) : String :=
  match x with
  | some s => if s = "" then y else s
  | none => y

/-- The contract-type string of ddoi_from_chain: nested details first, then
the top level, else empty; upper-cased. -/
def ctypeOf (o : OptionContract) : String :=
  strUpper (pyStrOr o.details_contract_type (pyStrOr o.contract_type ""))

/-- The startswith C test of ddoi_from_chain (a one-character prefix test:
the first character is C). -/
def startsWithC (s : String) : Bool :=
  match s.data with
  | [] => false
  | c :: _ => c == 'C'

/-- gamma with the or-0.0 default chain of the code. -/
def gammaOf (o : OptionContract) : ℚ := (o.greeks.bind Greeks.gamma).getD 0

/-- delta with the or-0.0 default chain of the code. -/
def deltaOf (o : OptionContract) : ℚ := (o.greeks.bind Greeks.delta).getD 0

/-- open interest with the or-0 default of the code. -/
def oiOf (o : OptionContract) : ℚ := o.open_interest.getD 0

/-- The sign of a contract: +1 when its type starts with C, else -1. -/
def sgnOf (o : OptionContract) : ℚ := if startsWithC (ctypeOf o) then 1 else -1

/-- ddoi_from_chain of app/bias/ddoi.py: the (net_gex, net_delta) pair. -/
def ddoi_from_chain (chain : List OptionContract) : ℚ × ℚ :=
  chain.foldl (fun acc opt =>
    (acc.1 + gammaOf opt * oiOf opt * sgnOf opt,
     acc.2 + deltaOf opt * oiOf opt * sgnOf opt)) (0, 0)

theorem ddoi_foldl (chain : List OptionContract) (a b : ℚ) :
    chain.foldl (fun acc opt =>
      (acc.1 + gammaOf opt * oiOf opt * sgnOf opt,
       acc.2 + deltaOf opt * oiOf opt * sgnOf opt)) (a, b) =
    (a + (chain.map (fun o => gammaOf o * oiOf o * sgnOf o)).sum,
     b + (chain.map (fun o => deltaOf o * oiOf o * sgnOf o)).sum) := by
  induction chain generalizing a b with
  | nil => simp
  | cons o rest ih => simp [ih, add_assoc]

theorem ddoi_spec (chain : List OptionContract) :
    ddoi_from_chain chain =
      ((chain.map (fun o => gammaOf o * oiOf o * sgnOf o)).sum,
       (chain.map (fun o => deltaOf o * oiOf o * sgnOf o)).sum) := by
  simpa [ddoi_from_chain] using ddoi_foldl chain 0 0

theorem strUpper_empty : strUpper "" = "" := rfl

/-- C10: the ddoi sums are signed per-contract sums of greek times open
interest, with sign +1 exactly for contracts whose type starts with C;
any contract whose contract_type is missing or empty in both places gets
sign -1, and every non-call contract's delta and gamma contributions are
subtracted from the running sums, not excluded. -/
theorem c10_ddoi :
    (∀ chain : List OptionContract,
      ddoi_from_chain chain =
        ((chain.map (fun o => gammaOf o * oiOf o * sgnOf o)).sum,
         (chain.map (fun o => deltaOf o * oiOf o * sgnOf o)).sum)) ∧
    (∀ o : OptionContract, startsWithC (ctypeOf o) = false → sgnOf o = -1) ∧
    (∀ o : OptionContract,
      (o.details_contract_type = none ∨ o.details_contract_type = some "") →
      (o.contract_type = none ∨ o.contract_type = some "") →
      sgnOf o = -1) ∧
    (∀ (o : OptionContract) (rest : List OptionContract),
      startsWithC (ctypeOf o) = false →
      (ddoi_from_chain (o :: rest)).2 =
        (ddoi_from_chain rest).2 - deltaOf o * oiOf o ∧
      (ddoi_from_chain (o :: rest)).1 =
        (ddoi_from_chain rest).1 - gammaOf o * oiOf o) := by
  have hsgn : ∀ o : OptionContract, startsWithC (ctypeOf o) = false → sgnOf o = -1 := by
    intro o h
    simp [sgnOf, h]
  refine ⟨ddoi_spec, hsgn, ?_, ?_⟩
  · intro o h1 h2
    have hc : ctypeOf o = "" := by
      rcases h1 with h1 | h1 <;> rcases h2 with h2 | h2 <;>
        simp [ctypeOf, pyStrOr, h1, h2, strUpper_empty]
    refine hsgn o ?_
    rw [hc]
    rfl
  · intro o rest h
    rw [ddoi_spec, ddoi_spec]
    have h2 := hsgn o h
    constructor <;> simp [h2] <;> ring

/-- A contract with delta 0.5, gamma 0.1, open interest 100 and an empty
contract type everywhere. -/
def ocW : OptionContract := ⟨some ⟨some (1/10), some (1/2)⟩, some 100, none, some ""⟩

/-- A put contract with type only under details. -/
def ocW2 : OptionContract := ⟨some ⟨some (1/10), some (1/2)⟩, some 50, some "put", none⟩

/-- Witness for c10_ddoi: the put and the type-less contract both get sign
-1, and the type-less contract's delta contribution is subtracted. -/
theorem c10_ddoi_witness :
    sgnOf ocW2 = -1 ∧ sgnOf ocW = -1 ∧
    (ddoi_from_chain [ocW]).2 = (ddoi_from_chain []).2 - deltaOf ocW * oiOf ocW :=
  ⟨c10_ddoi.2.1 ocW2 (by decide), c10_ddoi.2.2.1 ocW (Or.inl rfl) (Or.inr rfl),
   (c10_ddoi.2.2.2 ocW [] (by decide)).1⟩

end ICT
